import Mathlib

/-!
Shallow embedding of the Smarter Dog booking core
(`src/smarter_dog_refactored.py`): the calendar resolver
(`_parse_date`, `_last_weekday_of_month`, `_bank_holidays_for_year`,
`_is_bank_holiday`, `_is_christmas_shutdown`, `_shift_bank_holiday`,
`_ensure_operating_day`, `_resolve_operating_day`), the capacity ledger
(`CURRENT_BOOKINGS`, `_slot_has_capacity`) and the two tools
(`get_available_slots`, `book_grooming_appointment`).

Dates are modelled by the proleptic Gregorian calendar exactly as
Python's `datetime.date` implements it: `weekday` is derived from the
rata-die ordinal (day 1 = 0001-01-01, a Monday, `weekday 0`), and
`timedelta` addition is day-by-day rollover.  A raised `ValueError`
is modelled with `Option`/`Except` (`none` / `.error`).
-/

namespace SmarterDog

/-- Python's `datetime.date`: a (year, month, day) triple. -/
structure Date where
  year : Nat
  month : Nat
  day : Nat
deriving DecidableEq

/-- Gregorian leap-year rule, as implemented by Python's `calendar.isleap`. -/
def isLeapYear (y : Nat) : Bool :=
  (y % 4 == 0 && y % 100 != 0) || y % 400 == 0

/-- `calendar.monthrange(y, m)[1]`: number of days in month `m` of year `y`. -/
def daysInMonth (y m : Nat) : Nat :=
  if m == 2 then (if isLeapYear y then 29 else 28)
  else if m == 4 || m == 6 || m == 9 || m == 11 then 30
  else 31

/-- Cumulative days before month `m` in year `y`. -/
def daysBeforeMonth (y m : Nat) : Nat :=
  (match m with
   | 1 => 0 | 2 => 31 | 3 => 59 | 4 => 90 | 5 => 120 | 6 => 151
   | 7 => 181 | 8 => 212 | 9 => 243 | 10 => 273 | 11 => 304 | _ => 334)
  + (if 3 ≤ m ∧ isLeapYear y then 1 else 0)

/-- Rata-die ordinal of a date (0001-01-01 ↦ 1), as in CPython's
`datetime._ymd2ord`. -/
def toRD (d : Date) : Nat :=
  365 * (d.year - 1) + (d.year - 1) / 4 + (d.year - 1) / 400
    + daysBeforeMonth d.year d.month + d.day - (d.year - 1) / 100

/-- Python's `date.weekday()`: Monday = 0 … Sunday = 6. -/
def weekday (d : Date) : Nat := (toRD d + 6) % 7

/-- A date that Python's `datetime.date` constructor accepts. -/
def Date.Valid (d : Date) : Prop :=
  1 ≤ d.year ∧ 1 ≤ d.month ∧ d.month ≤ 12 ∧ 1 ≤ d.day ∧
    d.day ≤ daysInMonth d.year d.month

instance (d : Date) : Decidable d.Valid := by
  unfold Date.Valid; infer_instance

/-- `d + timedelta(days=1)` on a valid date: rollover through month and
year ends. -/
def nextDay (d : Date) : Date :=
  if d.day < daysInMonth d.year d.month then ⟨d.year, d.month, d.day + 1⟩
  else if d.month < 12 then ⟨d.year, d.month + 1, 1⟩
  else ⟨d.year + 1, 1, 1⟩

/-- `d + timedelta(days=n)`. -/
def addDays (d : Date) : Nat → Date
  | 0 => d
  | n + 1 => addDays (nextDay d) n

/-- Python `day.strftime("%A")`, given `day.weekday()`. -/
def weekdayName (w : Nat) : String :=
  match w with
  | 0 => "Monday" | 1 => "Tuesday" | 2 => "Wednesday" | 3 => "Thursday"
  | 4 => "Friday" | 5 => "Saturday" | _ => "Sunday"

/-- Zero-pad to two digits. -/
def pad2 (n : Nat) : String := if n < 10 then "0" ++ toString n else toString n

/-- Zero-pad to four digits. -/
def pad4 (n : Nat) : String :=
  if n < 10 then "000" ++ toString n
  else if n < 100 then "00" ++ toString n
  else if n < 1000 then "0" ++ toString n
  else toString n

/-- Python `date.isoformat()`: the `YYYY-MM-DD` rendering of a date. -/
def isoformat (d : Date) : String :=
  pad4 d.year ++ "-" ++ pad2 d.month ++ "-" ++ pad2 d.day

/-- Numeric value of a decimal digit character. -/
def digitVal (c : Char) : Nat := c.toNat - 48

/-- `_parse_date` (`datetime.fromisoformat(value).date()`) on canonical
`YYYY-MM-DD` input; `none` models the `ValueError` Python raises on a
malformed date string or an out-of-range component. -/
def parse_date (value : String) : Option Date :=
  match value.toList with
  | [y1, y2, y3, y4, h1, m1, m2, h2, d1, d2] =>
    if h1 = '-' ∧ h2 = '-' ∧ y1.isDigit ∧ y2.isDigit ∧ y3.isDigit ∧ y4.isDigit
        ∧ m1.isDigit ∧ m2.isDigit ∧ d1.isDigit ∧ d2.isDigit then
      let y := ((digitVal y1 * 10 + digitVal y2) * 10 + digitVal y3) * 10
        + digitVal y4
      let m := digitVal m1 * 10 + digitVal m2
      let d := digitVal d1 * 10 + digitVal d2
      if 1 ≤ y ∧ 1 ≤ m ∧ m ≤ 12 ∧ 1 ≤ d ∧ d ≤ daysInMonth y m
      then some ⟨y, m, d⟩
      else none
    else none
  | _ => none

/-- The backward walk of `_last_weekday_of_month` (`candidate -= 1 day`
until the weekday matches), indexed by the day it stands on.  The walk
always hits within the last seven days of the month (every month has at
least 28 days), so it never leaves the month; the fuel-exhausted base
case is unreachable for weekday arguments 0–6. -/
def searchLastWeekday (year month wd : Nat) : Nat → Date
  | 0 => ⟨year, month, 0⟩
  | d + 1 =>
    if weekday ⟨year, month, d + 1⟩ = wd then ⟨year, month, d + 1⟩
    else searchLastWeekday year month wd d

/-- `_last_weekday_of_month`: last occurrence of a weekday in a month,
starting from `calendar.monthrange(year, month)[1]`. -/
def last_weekday_of_month (year month wd : Nat) : Date :=
  searchLastWeekday year month wd (daysInMonth year month)

/-- `_bank_holidays_for_year`: the UK bank-holiday set of a year.  The
Python `set` is modelled as a list; only membership is ever consumed.
The `lru_cache` memoisation of a pure function has no semantic content. -/
def bank_holidays_for_year (year : Nat) : List Date :=
  let late_may := last_weekday_of_month year 5 0
  let late_august := last_weekday_of_month year 8 0
  let christmas : Date := ⟨year, 12, 25⟩
  [late_may, late_august, christmas]
    ++ (if weekday christmas = 5 then [addDays christmas 2]
        else if weekday christmas = 6 then [addDays christmas 1]
        else [])

/-- `_is_bank_holiday`. -/
def is_bank_holiday (day : Date) : Bool :=
  decide (day ∈ bank_holidays_for_year day.year)

/-- Python `date.__le__`: lexicographic comparison on (year, month, day). -/
def dateLe (a b : Date) : Bool :=
  decide (a.year < b.year ∨ (a.year = b.year ∧
    (a.month < b.month ∨ (a.month = b.month ∧ a.day ≤ b.day))))

/-- The forward walk of `_is_christmas_shutdown` (`first_monday += 1 day`
until Monday).  Fuel 7 always suffices: any seven consecutive days
contain a Monday. -/
def walkToMonday : Nat → Date → Date
  | 0, d => d
  | fuel + 1, d => if weekday d = 0 then d else walkToMonday fuel (nextDay d)

/-- `_is_christmas_shutdown`: Dec 24–26, plus the three days from the
first Monday strictly after this date's own year's Dec 26 — for dates
at or before that Dec 26 (in particular every January date) the check
returns `False` early. -/
def is_christmas_shutdown (day : Date) : Bool :=
  if day.month = 12 ∧ (day.day = 24 ∨ day.day = 25 ∨ day.day = 26) then true
  else
    let dec26 : Date := ⟨day.year, 12, 26⟩
    if dateLe day dec26 then false
    else
      let first_monday := walkToMonday 7 (nextDay dec26)
      decide (day = first_monday ∨ day = addDays first_monday 1 ∨
        day = addDays first_monday 2)

/-- `OPEN_WEEKDAYS = {0, 1, 2}` (Mon, Tue, Wed). -/
def OPEN_WEEKDAYS : List Nat := [0, 1, 2]

/-- The note `_shift_bank_holiday` records when it moves a booking. -/
def shiftNote (day new_day : Date) : String :=
  isoformat day ++ " is a bank holiday, booking moved to "
    ++ isoformat new_day ++ "."

/-- `_shift_bank_holiday`: result is (day, notes, force_open). -/
def shift_bank_holiday (day : Date) : Date × List String × Bool :=
  if weekday day ∈ OPEN_WEEKDAYS ∧ is_bank_holiday day then
    let new_day := addDays day (3 - weekday day)
    (new_day, [shiftNote day new_day], true)
  else (day, [], false)

/-- `_ensure_operating_day`: result is (day, closure notes). -/
def ensure_operating_day (day : Date) (force_open : Bool) : Date × List String :=
  if force_open ∧ weekday day = 3 ∧ ¬ is_christmas_shutdown day then (day, [])
  else if ¬ (weekday day ∈ OPEN_WEEKDAYS) then
    (day, [isoformat day ++ " falls on " ++ weekdayName (weekday day)
      ++ ", salon closed."])
  else if is_christmas_shutdown day then
    (day, [isoformat day ++ " is during the Christmas shutdown."])
  else (day, [])

/-- `_resolve_operating_day`: result is (operating day, notes, is_open);
`none` models the `ValueError` on a malformed date string. -/
def resolve_operating_day (requested_date : String) :
    Option (Date × List String × Bool) :=
  match parse_date requested_date with
  | none => none
  | some requested =>
    match shift_bank_holiday requested with
    | (day, notes, force_open) =>
      match ensure_operating_day day force_open with
      | (operating_day, closure_notes) =>
        some (operating_day, notes ++ closure_notes,
          closure_notes.isEmpty
            && (force_open || decide (weekday operating_day ∈ OPEN_WEEKDAYS)))

/-- The capacity ledger, modelled extensionally: `led day_key slot` is
`CURRENT_BOOKINGS.get(day_key, {}).get(slot, 0)`, which is the only way
the dict-of-dicts is ever read (`setdefault` of an empty inner dict
changes no such value). -/
abbrev Ledger := String → String → Nat

/-- `SLOT_TIMES`: the fixed chronological slot sequence. -/
def SLOT_TIMES : List String :=
  ["08:30", "09:00", "09:30", "10:00", "10:30",
   "11:00", "11:30", "12:00", "12:30", "13:00"]

/-- `CAPACITY_UNITS = 2`. -/
def CAPACITY_UNITS : Nat := 2

/-- The `dog_size` literal type. -/
inductive DogSize
  | small
  | medium
  | large
deriving DecidableEq

/-- `DOG_SIZE_UNITS`. -/
def DOG_SIZE_UNITS : DogSize → Nat
  | .small => 1
  | .medium => 1
  | .large => 2

/-- The pre-seeded `CURRENT_BOOKINGS` ledger. -/
def CURRENT_BOOKINGS : Ledger := fun day_key slot =>
  if day_key = "2024-07-10" ∧ slot = "09:00" then 2
  else if day_key = "2024-07-17" ∧ slot = "10:30" then 1
  else 0

/-- `_slot_has_capacity`. -/
def slot_has_capacity (led : Ledger) (day : Date) (slot : String)
    (units_needed : Nat) : Bool :=
  decide (led (isoformat day) slot + units_needed ≤ CAPACITY_UNITS)

/-- The dictionary `get_available_slots` returns. -/
structure SlotAvailabilityResponse where
  requested_date : String
  operating_date : String
  available_slots : List String
  notes : List String
deriving DecidableEq

/-- The dictionary `book_grooming_appointment` returns. -/
structure BookingResponse where
  dog_name : String
  dog_size : DogSize
  date : String
  time : String
  customer : String
  phone : String
  status : String
  notes : List String
deriving DecidableEq

/-- The distinct `ValueError`s `book_grooming_appointment` raises
(`malformedDate` is the one propagated out of `_parse_date`). -/
inductive BookingError
  | closedDay
  | invalidTime
  | slotFull
  | malformedDate
deriving DecidableEq

/-- `get_available_slots`.  The returned ledger is the post-call state
(the function only reads); `none` models the `ValueError` a malformed
date raises. -/
def get_available_slots (led : Ledger) (requested_date : String)
    (dog_size : DogSize) : Ledger × Option SlotAvailabilityResponse :=
  match resolve_operating_day requested_date with
  | none => (led, none)
  | some (operating_day, notes, is_open) =>
    if is_open = false then
      let reasons :=
        if notes.isEmpty then [isoformat operating_day ++ " is outside operating days."]
        else notes
      (led, some ⟨requested_date, isoformat operating_day, [], reasons⟩)
    else
      let units_needed := DOG_SIZE_UNITS dog_size
      let available := SLOT_TIMES.filter
        (fun slot => slot_has_capacity led operating_day slot units_needed)
      (led, some ⟨requested_date, isoformat operating_day, available, notes⟩)

/-- `book_grooming_appointment`: the atomic check-and-increment commit.
Result is (post ledger, outcome); `Except.error` models the raised
`ValueError`s. -/
def book_grooming_appointment (led : Ledger) (dog_name : String)
    (dog_size : DogSize) (requested_date requested_time customer_name
    contact_number : String) : Ledger × Except BookingError BookingResponse :=
  match resolve_operating_day requested_date with
  | none => (led, Except.error BookingError.malformedDate)
  | some (operating_day, notes, is_open) =>
    if is_open = false then (led, Except.error BookingError.closedDay)
    else if ¬ (requested_time ∈ SLOT_TIMES) then
      (led, Except.error BookingError.invalidTime)
    else
      let units_needed := DOG_SIZE_UNITS dog_size
      let day_key := isoformat operating_day
      let used := led day_key requested_time
      if used + units_needed > CAPACITY_UNITS then
        (led, Except.error BookingError.slotFull)
      else
        (fun dk s =>
          if dk = day_key ∧ s = requested_time then used + units_needed
          else led dk s,
         Except.ok ⟨dog_name, dog_size, day_key, requested_time,
           customer_name, contact_number, "Booked", notes⟩)

instance : DecidableEq (Except BookingError BookingResponse) := fun a b =>
  match a, b with
  | .error x, .error y =>
    if h : x = y then isTrue (by rw [h]) else isFalse (by simp [h])
  | .ok x, .ok y =>
    if h : x = y then isTrue (by rw [h]) else isFalse (by simp [h])
  | .error _, .ok _ => isFalse (by simp)
  | .ok _, .error _ => isFalse (by simp)

/-- A structured booking request (the fields of `BookingRequest`). -/
structure BookingRequest where
  dog_name : String
  dog_size : DogSize
  requested_date : String
  requested_time : String
  customer_name : String
  contact_number : String

/-- The ledger after a sequence of booking-commit attempts. -/
def runBookings (led : Ledger) (reqs : List BookingRequest) : Ledger :=
  reqs.foldl (fun acc r =>
    (book_grooming_appointment acc r.dog_name r.dog_size r.requested_date
      r.requested_time r.customer_name r.contact_number).1) led

theorem daysInMonth_pos (y m : Nat) : 1 ≤ daysInMonth y m := by
  unfold daysInMonth
  split
  · split <;> omega
  · split <;> omega

theorem toRD_mk (Y m dd : Nat) :
    toRD ⟨Y, m, dd⟩ = 365 * (Y - 1) + (Y - 1) / 4 + (Y - 1) / 400
      + daysBeforeMonth Y m + dd - (Y - 1) / 100 := rfl

theorem valid_nextDay {d : Date} (h : d.Valid) : (nextDay d).Valid := by
  obtain ⟨Y, m, dd⟩ := d
  obtain ⟨hy, hm1, hm2, hd1, hd2⟩ := h
  have hy' : 1 ≤ Y := hy
  have hm1' : 1 ≤ m := hm1
  have hm2' : m ≤ 12 := hm2
  have hd1' : 1 ≤ dd := hd1
  have hd2' : dd ≤ daysInMonth Y m := hd2
  unfold nextDay
  split
  · rename_i hc
    have hc' : dd < daysInMonth Y m := hc
    exact ⟨hy', hm1', hm2', show 1 ≤ dd + 1 by omega,
      show dd + 1 ≤ daysInMonth Y m by omega⟩
  · split
    · rename_i hc2
      have hc2' : m < 12 := hc2
      exact ⟨hy', show 1 ≤ m + 1 by omega, show m + 1 ≤ 12 by omega, le_refl 1,
        daysInMonth_pos _ _⟩
    · exact ⟨show 1 ≤ Y + 1 by omega, le_refl 1, show (1 : Nat) ≤ 12 by omega,
        le_refl 1, daysInMonth_pos _ _⟩

theorem isLeapYear_iff (y : Nat) :
    isLeapYear y = true ↔ ((y % 4 = 0 ∧ y % 100 ≠ 0) ∨ y % 400 = 0) := by
  simp [isLeapYear, Bool.or_eq_true, Bool.and_eq_true, beq_iff_eq, bne_iff_ne]

theorem daysBeforeMonth_succ (y m : Nat) (h1 : 1 ≤ m) (h2 : m < 12) :
    daysBeforeMonth y (m + 1) = daysBeforeMonth y m + daysInMonth y m := by
  interval_cases m <;> cases hL : isLeapYear y <;>
    simp [daysBeforeMonth, daysInMonth, hL]

set_option maxHeartbeats 1600000 in
theorem toRD_nextDay {d : Date} (h : d.Valid) :
    toRD (nextDay d) = toRD d + 1 := by
  obtain ⟨Y, m, dd⟩ := d
  obtain ⟨hy, hm1, hm2, hd1, hd2⟩ := h
  have hy' : 1 ≤ Y := hy
  have hm1' : 1 ≤ m := hm1
  have hm2' : m ≤ 12 := hm2
  have hd1' : 1 ≤ dd := hd1
  have hd2' : dd ≤ daysInMonth Y m := hd2
  clear hy hm1 hm2 hd1 hd2
  unfold nextDay
  split
  · rename_i hc
    have hc' : dd < daysInMonth Y m := hc
    clear hc
    show toRD ⟨Y, m, dd + 1⟩ = toRD ⟨Y, m, dd⟩ + 1
    rw [toRD_mk, toRD_mk]
    omega
  · rename_i hlt
    have hlt' : ¬ dd < daysInMonth Y m := hlt
    clear hlt
    split
    · -- month rollover: day = last of month, month < 12
      rename_i hm12
      have hm12' : m < 12 := hm12
      clear hm12
      have hstep := daysBeforeMonth_succ Y m hm1' hm12'
      show toRD ⟨Y, m + 1, 1⟩ = toRD ⟨Y, m, dd⟩ + 1
      rw [toRD_mk, toRD_mk]
      omega
    · -- year rollover: Dec 31 → Jan 1
      rename_i hm12
      have hm12' : ¬ m < 12 := hm12
      clear hm12
      have hme : m = 12 := by omega
      subst hme
      have h31 : daysInMonth Y 12 = 31 := by simp [daysInMonth]
      have hde : dd = 31 := by omega
      subst hde
      obtain ⟨y, rfl⟩ : ∃ y, Y = y + 1 := ⟨Y - 1, by omega⟩
      show toRD ⟨y + 1 + 1, 1, 1⟩ = toRD ⟨y + 1, 12, 31⟩ + 1
      rw [toRD_mk, toRD_mk]
      simp only [Nat.add_sub_cancel]
      have hb1 : daysBeforeMonth (y + 1 + 1) 1 = 0 := by simp [daysBeforeMonth]
      rw [hb1]
      cases hL : isLeapYear (y + 1)
      · have hb12 : daysBeforeMonth (y + 1) 12 = 334 := by
          simp [daysBeforeMonth, hL]
        have hm := isLeapYear_iff (y + 1)
        rw [hL] at hm
        have hP : ¬ (((y + 1) % 4 = 0 ∧ (y + 1) % 100 ≠ 0) ∨ (y + 1) % 400 = 0) :=
          fun hp => Bool.false_ne_true (hm.mpr hp)
        rw [hb12]
        clear hm hb12 hb1 h31
        omega
      · have hb12 : daysBeforeMonth (y + 1) 12 = 335 := by
          simp [daysBeforeMonth, hL]
        have hm := isLeapYear_iff (y + 1)
        rw [hL] at hm
        have hP : ((y + 1) % 4 = 0 ∧ (y + 1) % 100 ≠ 0) ∨ (y + 1) % 400 = 0 :=
          hm.mp rfl
        rw [hb12]
        clear hm hb12 hb1 h31
        omega

theorem valid_addDays {d : Date} (h : d.Valid) (n : Nat) :
    (addDays d n).Valid := by
  induction n generalizing d with
  | zero => exact h
  | succ k ih => exact ih (valid_nextDay h)

theorem toRD_addDays {d : Date} (h : d.Valid) (n : Nat) :
    toRD (addDays d n) = toRD d + n := by
  induction n generalizing d with
  | zero => rfl
  | succ k ih =>
    have := ih (valid_nextDay h)
    simp only [addDays] at this ⊢
    rw [this, toRD_nextDay h]
    omega

theorem weekday_addDays {d : Date} (h : d.Valid) (n : Nat) :
    weekday (addDays d n) = (weekday d + n) % 7 := by
  unfold weekday
  rw [toRD_addDays h n]
  omega

theorem CURRENT_BOOKINGS_le (dk s : String) :
    CURRENT_BOOKINGS dk s ≤ CAPACITY_UNITS := by
  unfold CURRENT_BOOKINGS CAPACITY_UNITS
  split_ifs <;> omega

theorem book_ledger_step (led : Ledger) (dn : String) (sz : DogSize)
    (rd rt cn ph dk s : String) :
    led dk s ≤ (book_grooming_appointment led dn sz rd rt cn ph).1 dk s
    ∧ (led dk s ≤ CAPACITY_UNITS →
        (book_grooming_appointment led dn sz rd rt cn ph).1 dk s
          ≤ CAPACITY_UNITS) := by
  unfold book_grooming_appointment
  cases hres : resolve_operating_day rd with
  | none => exact ⟨le_refl _, fun h => h⟩
  | some v =>
    obtain ⟨od, notes, op⟩ := v
    dsimp only
    split_ifs with h1 h2 h3 <;>
      try exact ⟨le_refl _, fun h => h⟩
    constructor
    · show led dk s ≤ if dk = isoformat od ∧ s = rt
          then led (isoformat od) rt + DOG_SIZE_UNITS sz else led dk s
      split_ifs with hk
      · rw [hk.1, hk.2]
        exact Nat.le_add_right _ _
      · exact le_refl _
    · intro hcap
      show (if dk = isoformat od ∧ s = rt
          then led (isoformat od) rt + DOG_SIZE_UNITS sz else led dk s)
        ≤ CAPACITY_UNITS
      split_ifs with hk
      · omega
      · exact hcap

theorem runBookings_mono (reqs : List BookingRequest) :
    ∀ led dk s, led dk s ≤ runBookings led reqs dk s := by
  induction reqs with
  | nil => exact fun led dk s => le_refl _
  | cons r rest ih =>
    intro led dk s
    exact le_trans
      (book_ledger_step led r.dog_name r.dog_size r.requested_date
        r.requested_time r.customer_name r.contact_number dk s).1
      (ih _ dk s)

theorem runBookings_bound (reqs : List BookingRequest) :
    ∀ led, (∀ dk s, led dk s ≤ CAPACITY_UNITS) →
      ∀ dk s, runBookings led reqs dk s ≤ CAPACITY_UNITS := by
  induction reqs with
  | nil => exact fun led h => h
  | cons r rest ih =>
    intro led h dk s
    exact ih _
      (fun dk' s' =>
        (book_ledger_step led r.dog_name r.dog_size r.requested_date
          r.requested_time r.customer_name r.contact_number dk' s').2 (h dk' s'))
      dk s

/-- C1: starting from the pre-seeded `CURRENT_BOOKINGS` ledger, after any
sequence of booking-commit attempts every ledger entry stays between 0
and `CAPACITY_UNITS` (= 2), and no attempt ever decrements a ledger
value (the second conjunct gives pointwise monotonicity of every single
commit attempt over any ledger, hence over the whole sequence). -/
theorem claim_C1 :
    (∀ reqs dk s, runBookings CURRENT_BOOKINGS reqs dk s ≤ CAPACITY_UNITS)
    ∧ (∀ led reqs dk s, led dk s ≤ runBookings led reqs dk s) :=
  ⟨fun reqs dk s => runBookings_bound reqs CURRENT_BOOKINGS CURRENT_BOOKINGS_le dk s,
   fun led reqs dk s => runBookings_mono reqs led dk s⟩

/-- C2 (code bug): the claim says a December 25 request resolves closed
with a shutdown note in every year.  In 2023 December 25 is a Monday,
so `_shift_bank_holiday` fires before the shutdown check and the code
returns the salon OPEN on Thursday December 28 with a bank-holiday
shift note. -/
theorem claim_C2 : resolve_operating_day "2023-12-25"
    = some (⟨2023, 12, 28⟩,
        ["2023-12-25 is a bank holiday, booking moved to 2023-12-28."],
        true) := by decide

/-- C3 (code bug): the claim says the three days from the first Monday
strictly after December 26 are closed even in January of the next year.
December 26, 2023 is a Tuesday, so that Monday is January 1, 2024 — but
`_is_christmas_shutdown` compares against the day's OWN year's Dec 26
and returns `False` for every January date, so the code resolves
January 1, 2024 as an ordinary OPEN Monday. -/
theorem claim_C3 : resolve_operating_day "2024-01-01"
    = some (⟨2024, 1, 1⟩, [], true) := by decide

/-- C9: `get_available_slots` performs no writes — the ledger after any
call is pointwise identical to the ledger before. -/
theorem claim_C9 (led : Ledger) (rd : String) (sz : DogSize) (dk s : String) :
    (get_available_slots led rd sz).1 dk s = led dk s := by
  unfold get_available_slots
  cases hres : resolve_operating_day rd with
  | none => rfl
  | some v =>
    obtain ⟨od, notes, op⟩ := v
    dsimp only
    split_ifs <;> rfl

theorem ensure_fst (day : Date) (f : Bool) :
    (ensure_operating_day day f).1 = day := by
  unfold ensure_operating_day
  split_ifs <;> rfl

theorem parse_date_valid {s : String} {d : Date}
    (hp : parse_date s = some d) : d.Valid := by
  unfold parse_date at hp
  split at hp
  · dsimp only at hp
    split_ifs at hp with h1 h2
    · injection hp with hp
      subst hp
      exact ⟨h2.1, h2.2.1, h2.2.2.1, h2.2.2.2.1, h2.2.2.2.2⟩
  · exact Option.noConfusion hp

theorem resolve_some {s : String} {d : Date} (hp : parse_date s = some d) :
    resolve_operating_day s
      = some ((shift_bank_holiday d).1,
          (shift_bank_holiday d).2.1
            ++ (ensure_operating_day (shift_bank_holiday d).1
                  (shift_bank_holiday d).2.2).2,
          ((ensure_operating_day (shift_bank_holiday d).1
              (shift_bank_holiday d).2.2).2.isEmpty
            && ((shift_bank_holiday d).2.2
              || decide (weekday (shift_bank_holiday d).1 ∈ OPEN_WEEKDAYS)))) := by
  unfold resolve_operating_day
  rw [hp]
  dsimp only
  rcases hsb : shift_bank_holiday d with ⟨day, nts, f⟩
  rcases heo : ensure_operating_day day f with ⟨od2, cn⟩
  have hfst := ensure_fst day f
  rw [heo] at hfst
  dsimp only at hfst
  dsimp only
  rw [hfst]

/-- C4 (amended): for every PARSEABLE requested date and any unit size
the availability query returns a response rather than raising, and a
closed day surfaces as an empty slot list with non-empty notes.  (On a
malformed date string the query does raise; see the counterexample.) -/
theorem claim_C4 (led : Ledger) (rd : String) (sz : DogSize) (d : Date)
    (hp : parse_date rd = some d) :
    ∃ resp, (get_available_slots led rd sz).2 = some resp
      ∧ (∀ od notes, resolve_operating_day rd = some (od, notes, false) →
          resp.available_slots = [] ∧ resp.notes ≠ []) := by
  obtain ⟨od0, notes0, op0, hres⟩ :
      ∃ od notes op, resolve_operating_day rd = some (od, notes, op) :=
    ⟨_, _, _, resolve_some hp⟩
  unfold get_available_slots
  rw [hres]
  dsimp only
  cases op0 with
  | false =>
    rw [if_pos rfl]
    refine ⟨_, rfl, fun od notes h => ⟨rfl, ?_⟩⟩
    dsimp only
    split_ifs with hemp
    · simp
    · intro hnil
      rw [hnil] at hemp
      exact hemp rfl
  | true =>
    rw [if_neg (by simp)]
    refine ⟨_, rfl, fun od notes h => ?_⟩
    simp at h

/-- C4 counterexample: on input `"hello"` (with any unit size) the
availability query does NOT return a response — `_parse_date` raises
`ValueError`, modelled by `none` — refuting the claim for arbitrary
requested-date strings. -/
theorem claim_C4_cex :
    (get_available_slots CURRENT_BOOKINGS "hello" DogSize.small).2 = none := by
  decide

/-- C4 witness: December 24, 2024 parses, and the query on it returns a
response whose slot list is empty with non-empty notes whenever the
resolver reports the day closed. -/
theorem claim_C4_witness :
    parse_date "2024-12-24" = some ⟨2024, 12, 24⟩
    ∧ ∃ resp,
        (get_available_slots CURRENT_BOOKINGS "2024-12-24" DogSize.small).2
          = some resp
        ∧ (∀ od notes,
            resolve_operating_day "2024-12-24" = some (od, notes, false) →
            resp.available_slots = [] ∧ resp.notes ≠ []) :=
  ⟨by decide,
   claim_C4 CURRENT_BOOKINGS "2024-12-24" DogSize.small ⟨2024, 12, 24⟩
     (by decide)⟩

/-- C6: on an open operating date the availability query includes a slot
of the fixed sequence exactly when its booked units plus the units
needed fit within `CAPACITY_UNITS`, and the returned list is a sublist
of (hence ordered like) the fixed chronological slot sequence. -/
theorem claim_C6 (led : Ledger) (rd : String) (sz : DogSize) (od : Date)
    (notes : List String)
    (hres : resolve_operating_day rd = some (od, notes, true)) :
    ∃ resp, (get_available_slots led rd sz).2 = some resp
      ∧ List.Sublist resp.available_slots SLOT_TIMES
      ∧ (∀ s, s ∈ SLOT_TIMES →
          (s ∈ resp.available_slots
            ↔ led (isoformat od) s + DOG_SIZE_UNITS sz ≤ CAPACITY_UNITS)) := by
  unfold get_available_slots
  rw [hres]
  dsimp only
  rw [if_neg (by simp)]
  refine ⟨_, rfl, List.filter_sublist _, fun s hs => ?_⟩
  constructor
  · intro hmem
    have hc := (List.mem_filter.mp hmem).2
    unfold slot_has_capacity at hc
    exact of_decide_eq_true hc
  · intro hcap
    refine List.mem_filter.mpr ⟨hs, ?_⟩
    unfold slot_has_capacity
    exact decide_eq_true hcap

/-- C6 witness: July 17, 2024 (a Wednesday) resolves open, and for a
large dog (2 units) the slot "10:30" — which already holds 1 unit — is
excluded exactly per the capacity inequality. -/
theorem claim_C6_witness :
    resolve_operating_day "2024-07-17" = some (⟨2024, 7, 17⟩, [], true)
    ∧ ∃ resp,
        (get_available_slots CURRENT_BOOKINGS "2024-07-17" DogSize.large).2
          = some resp
        ∧ List.Sublist resp.available_slots SLOT_TIMES
        ∧ (∀ s, s ∈ SLOT_TIMES →
            (s ∈ resp.available_slots
              ↔ CURRENT_BOOKINGS (isoformat ⟨2024, 7, 17⟩) s
                  + DOG_SIZE_UNITS DogSize.large ≤ CAPACITY_UNITS)) :=
  ⟨by decide,
   claim_C6 CURRENT_BOOKINGS "2024-07-17" DogSize.large ⟨2024, 7, 17⟩ []
     (by decide)⟩

/-- C7: booking commit fails exactly on a closed resolved day (closed-day
error), a requested time outside the fixed slot sequence (invalid-time
error, raised even with free capacity), or a capacity overflow
(slot-full error); every failure leaves every ledger value unchanged,
and otherwise it succeeds with status "Booked" after incrementing the
slot's units by the units needed. -/
theorem claim_C7 (led : Ledger) (dn : String) (sz : DogSize)
    (rd rt cn ph : String) (od : Date) (notes : List String) (op : Bool)
    (hres : resolve_operating_day rd = some (od, notes, op))
    (led' : Ledger) (out : Except BookingError BookingResponse)
    (hbook : book_grooming_appointment led dn sz rd rt cn ph = (led', out)) :
    (out = Except.error BookingError.closedDay ↔ op = false)
    ∧ (out = Except.error BookingError.invalidTime
        ↔ (op = true ∧ rt ∉ SLOT_TIMES))
    ∧ (out = Except.error BookingError.slotFull
        ↔ (op = true ∧ rt ∈ SLOT_TIMES
            ∧ CAPACITY_UNITS < led (isoformat od) rt + DOG_SIZE_UNITS sz))
    ∧ ((∃ e, out = Except.error e) → ∀ dk s, led' dk s = led dk s)
    ∧ (∀ resp, out = Except.ok resp → resp.status = "Booked"
        ∧ led' (isoformat od) rt = led (isoformat od) rt + DOG_SIZE_UNITS sz)
    ∧ (op = true → rt ∈ SLOT_TIMES
        → led (isoformat od) rt + DOG_SIZE_UNITS sz ≤ CAPACITY_UNITS
        → ∃ resp, out = Except.ok resp) := by
  unfold book_grooming_appointment at hbook
  rw [hres] at hbook
  dsimp only at hbook
  cases op with
  | false =>
    rw [if_pos rfl] at hbook
    injection hbook with hled hout
    subst hled
    subst hout
    exact ⟨by simp, by simp, by simp, fun _ dk s => rfl,
      fun resp h => Except.noConfusion h,
      fun hop _ _ => Bool.noConfusion hop⟩
  | true =>
    rw [if_neg (by simp)] at hbook
    by_cases hmem : rt ∈ SLOT_TIMES
    · rw [if_neg (not_not_intro hmem)] at hbook
      by_cases hcap : led (isoformat od) rt + DOG_SIZE_UNITS sz
          > CAPACITY_UNITS
      · rw [if_pos hcap] at hbook
        injection hbook with hled hout
        subst hled
        subst hout
        refine ⟨by simp, by simp [hmem], by simp [hmem, hcap],
          fun _ dk s => rfl, fun resp h => Except.noConfusion h, ?_⟩
        intro _ _ hle
        exact absurd hle (by omega)
      · rw [if_neg hcap] at hbook
        injection hbook with hled hout
        subst hled
        subst hout
        refine ⟨by simp, by simp [hmem], ?_, ?_, ?_, fun _ _ _ => ⟨_, rfl⟩⟩
        · constructor
          · intro h
            exact Except.noConfusion h
          · rintro ⟨_, _, hlt⟩
            exact absurd hlt hcap
        · rintro ⟨e, he⟩
          exact Except.noConfusion he
        · intro resp h
          injection h with h
          subst h
          refine ⟨rfl, ?_⟩
          show (if isoformat od = isoformat od ∧ rt = rt
              then led (isoformat od) rt + DOG_SIZE_UNITS sz
              else led (isoformat od) rt)
            = led (isoformat od) rt + DOG_SIZE_UNITS sz
          rw [if_pos ⟨rfl, rfl⟩]
    · rw [if_pos hmem] at hbook
      injection hbook with hled hout
      subst hled
      subst hout
      exact ⟨by simp, by simp [hmem], by simp [hmem], fun _ dk s => rfl,
        fun resp h => Except.noConfusion h, fun _ hm _ => absurd hm hmem⟩

/-- C7 witness: July 10, 2024 resolves open, and booking the already-full
"09:00" slot there fails with exactly the slot-full error. -/
theorem claim_C7_witness :
    resolve_operating_day "2024-07-10" = some (⟨2024, 7, 10⟩, [], true)
    ∧ ((book_grooming_appointment CURRENT_BOOKINGS "Luna" DogSize.small
          "2024-07-10" "09:00" "Sarah" "555").2
        = Except.error BookingError.slotFull
      ↔ (true = true ∧ "09:00" ∈ SLOT_TIMES
          ∧ CAPACITY_UNITS < CURRENT_BOOKINGS (isoformat ⟨2024, 7, 10⟩) "09:00"
              + DOG_SIZE_UNITS DogSize.small)) :=
  ⟨by decide,
   (claim_C7 CURRENT_BOOKINGS "Luna" DogSize.small "2024-07-10" "09:00"
      "Sarah" "555" ⟨2024, 7, 10⟩ [] true (by decide) _ _ rfl).2.2.1⟩

/-- C8: a slot taken from the availability query's returned list, with no
intervening operation, commits successfully for the same requested date
and unit size, and afterwards the slot's units equal the pre-commit
units plus the unit cost of that size. -/
theorem claim_C8 (led : Ledger) (rd : String) (sz : DogSize)
    (resp : SlotAvailabilityResponse) (slot dn cn ph : String)
    (hq : (get_available_slots led rd sz).2 = some resp)
    (hmem : slot ∈ resp.available_slots) :
    ∃ r, (book_grooming_appointment led dn sz rd slot cn ph).2 = Except.ok r
      ∧ r.status = "Booked"
      ∧ (book_grooming_appointment led dn sz rd slot cn ph).1
          resp.operating_date slot
        = led resp.operating_date slot + DOG_SIZE_UNITS sz := by
  unfold get_available_slots at hq
  cases hres : resolve_operating_day rd with
  | none =>
    rw [hres] at hq
    exact Option.noConfusion hq
  | some v =>
    obtain ⟨od, notes, op⟩ := v
    rw [hres] at hq
    dsimp only at hq
    cases op with
    | false =>
      rw [if_pos rfl] at hq
      injection hq with hq
      subst hq
      exact absurd hmem (List.not_mem_nil slot)
    | true =>
      rw [if_neg (by simp)] at hq
      injection hq with hq
      subst hq
      have hm2 : slot ∈ List.filter
          (fun s => slot_has_capacity led od s (DOG_SIZE_UNITS sz))
          SLOT_TIMES := hmem
      have hs := (List.mem_filter.mp hm2).1
      have hc := (List.mem_filter.mp hm2).2
      unfold slot_has_capacity at hc
      have hcap : led (isoformat od) slot + DOG_SIZE_UNITS sz
          ≤ CAPACITY_UNITS := of_decide_eq_true hc
      unfold book_grooming_appointment
      rw [hres]
      dsimp only
      rw [if_neg (by simp), if_neg (not_not_intro hs), if_neg (by omega)]
      refine ⟨_, rfl, rfl, ?_⟩
      show (if isoformat od = isoformat od ∧ slot = slot
          then led (isoformat od) slot + DOG_SIZE_UNITS sz
          else led (isoformat od) slot)
        = led (isoformat od) slot + DOG_SIZE_UNITS sz
      rw [if_pos ⟨rfl, rfl⟩]

/-- C8 witness: the query for July 17, 2024 with a medium dog returns all
ten slots; committing its "08:30" slot succeeds and increments that
ledger entry by one unit. -/
theorem claim_C8_witness :
    (get_available_slots CURRENT_BOOKINGS "2024-07-17" DogSize.medium).2
      = some ⟨"2024-07-17", "2024-07-17", SLOT_TIMES, []⟩
    ∧ ∃ r, (book_grooming_appointment CURRENT_BOOKINGS "Rex" DogSize.medium
          "2024-07-17" "08:30" "Ana" "111").2 = Except.ok r
        ∧ r.status = "Booked"
        ∧ (book_grooming_appointment CURRENT_BOOKINGS "Rex" DogSize.medium
            "2024-07-17" "08:30" "Ana" "111").1
            (SlotAvailabilityResponse.mk "2024-07-17" "2024-07-17"
              SLOT_TIMES []).operating_date "08:30"
          = CURRENT_BOOKINGS
              (SlotAvailabilityResponse.mk "2024-07-17" "2024-07-17"
                SLOT_TIMES []).operating_date "08:30"
            + DOG_SIZE_UNITS DogSize.medium :=
  ⟨by decide,
   claim_C8 CURRENT_BOOKINGS "2024-07-17" DogSize.medium
     ⟨"2024-07-17", "2024-07-17", SLOT_TIMES, []⟩ "08:30" "Rex" "Ana" "111"
     (by decide) (by decide)⟩

/-- C5: for every parseable requested date whose weekday is Monday,
Tuesday or Wednesday and that is a recognized holiday of its year, the
resolver shifts the date forward by (3 − weekday) days to the Thursday
of that week, records the shift note, and marks the shifted date
force-open (the `true` flag of `shift_bank_holiday`); the operating
date of the resolution is that Thursday, with the shift note first. -/
theorem claim_C5 (s : String) (d : Date) (hp : parse_date s = some d)
    (hw : weekday d ∈ OPEN_WEEKDAYS) (hb : is_bank_holiday d = true) :
    weekday (addDays d (3 - weekday d)) = 3
    ∧ shift_bank_holiday d
        = (addDays d (3 - weekday d),
           [shiftNote d (addDays d (3 - weekday d))], true)
    ∧ ∃ extra isOp, resolve_operating_day s
        = some (addDays d (3 - weekday d),
            shiftNote d (addDays d (3 - weekday d)) :: extra, isOp) := by
  have hv := parse_date_valid hp
  have hw2 : weekday d ≤ 2 := by
    simp only [OPEN_WEEKDAYS, List.mem_cons, List.not_mem_nil, or_false] at hw
    omega
  have hwd : weekday (addDays d (3 - weekday d)) = 3 := by
    rw [weekday_addDays hv]
    omega
  have hshift : shift_bank_holiday d
      = (addDays d (3 - weekday d),
         [shiftNote d (addDays d (3 - weekday d))], true) := by
    unfold shift_bank_holiday
    rw [if_pos ⟨hw, hb⟩]
  refine ⟨hwd, hshift, ?_⟩
  have hres := resolve_some hp
  rw [hshift] at hres
  dsimp only at hres
  rw [List.singleton_append] at hres
  exact ⟨_, _, hres⟩

/-- C5 witness: May 26, 2025 is the last Monday of May (Spring Bank
Holiday); requesting it yields Thursday May 29 as the operating date
with the shift note. -/
theorem claim_C5_witness :
    parse_date "2025-05-26" = some ⟨2025, 5, 26⟩
    ∧ weekday ⟨2025, 5, 26⟩ ∈ OPEN_WEEKDAYS
    ∧ is_bank_holiday ⟨2025, 5, 26⟩ = true
    ∧ (weekday (addDays ⟨2025, 5, 26⟩ (3 - weekday ⟨2025, 5, 26⟩)) = 3
      ∧ shift_bank_holiday ⟨2025, 5, 26⟩
          = (addDays ⟨2025, 5, 26⟩ (3 - weekday ⟨2025, 5, 26⟩),
             [shiftNote ⟨2025, 5, 26⟩
               (addDays ⟨2025, 5, 26⟩ (3 - weekday ⟨2025, 5, 26⟩))], true)
      ∧ ∃ extra isOp, resolve_operating_day "2025-05-26"
          = some (addDays ⟨2025, 5, 26⟩ (3 - weekday ⟨2025, 5, 26⟩),
              shiftNote ⟨2025, 5, 26⟩
                (addDays ⟨2025, 5, 26⟩ (3 - weekday ⟨2025, 5, 26⟩)) :: extra,
              isOp)) :=
  ⟨by decide, by decide, by decide,
   claim_C5 "2025-05-26" ⟨2025, 5, 26⟩ (by decide) (by decide) (by decide)⟩

/-- C10: for every parseable requested date the resolved operating date
is never earlier, and whenever it differs it is exactly (3 − weekday)
days later — the Thursday of the same week — with the requested date an
operating weekday; the resolver never shifts to any other weekday. -/
theorem claim_C10 (s : String) (d od : Date) (notes : List String)
    (op : Bool) (hp : parse_date s = some d)
    (hres : resolve_operating_day s = some (od, notes, op)) :
    toRD d ≤ toRD od
    ∧ (od ≠ d → od = addDays d (3 - weekday d)
        ∧ weekday d ∈ OPEN_WEEKDAYS
        ∧ toRD od = toRD d + (3 - weekday d)
        ∧ weekday od = 3) := by
  have hv := parse_date_valid hp
  have h2 := resolve_some hp
  rw [hres] at h2
  injection h2 with h2
  injection h2 with hod h2
  by_cases hc : weekday d ∈ OPEN_WEEKDAYS ∧ is_bank_holiday d = true
  · have hsh : (shift_bank_holiday d).1 = addDays d (3 - weekday d) := by
      unfold shift_bank_holiday
      rw [if_pos hc]
    have hw2 : weekday d ≤ 2 := by
      have hmem := hc.1
      simp only [OPEN_WEEKDAYS, List.mem_cons, List.not_mem_nil, or_false]
        at hmem
      omega
    have hrd : toRD od = toRD d + (3 - weekday d) := by
      rw [hod, hsh, toRD_addDays hv]
    refine ⟨by omega, fun _ => ⟨hod.trans hsh, hc.1, hrd, ?_⟩⟩
    rw [hod, hsh, weekday_addDays hv]
    omega
  · have hsh : (shift_bank_holiday d).1 = d := by
      unfold shift_bank_holiday
      rw [if_neg hc]
    have heq : od = d := hod.trans hsh
    exact ⟨by rw [heq], fun hne => absurd heq hne⟩

/-- C10 witness: May 26, 2025 resolves to May 29, 2025 — three days
later, a Thursday — instantiating every conjunct concretely. -/
theorem claim_C10_witness :
    parse_date "2025-05-26" = some ⟨2025, 5, 26⟩
    ∧ resolve_operating_day "2025-05-26"
        = some (⟨2025, 5, 29⟩,
            ["2025-05-26 is a bank holiday, booking moved to 2025-05-29."],
            true)
    ∧ (toRD ⟨2025, 5, 26⟩ ≤ toRD ⟨2025, 5, 29⟩
      ∧ ((⟨2025, 5, 29⟩ : Date) ≠ ⟨2025, 5, 26⟩ →
          (⟨2025, 5, 29⟩ : Date)
              = addDays ⟨2025, 5, 26⟩ (3 - weekday ⟨2025, 5, 26⟩)
          ∧ weekday ⟨2025, 5, 26⟩ ∈ OPEN_WEEKDAYS
          ∧ toRD ⟨2025, 5, 29⟩
              = toRD ⟨2025, 5, 26⟩ + (3 - weekday ⟨2025, 5, 26⟩)
          ∧ weekday ⟨2025, 5, 29⟩ = 3)) :=
  ⟨by decide, by decide,
   claim_C10 "2025-05-26" ⟨2025, 5, 26⟩ ⟨2025, 5, 29⟩
     ["2025-05-26 is a bank holiday, booking moved to 2025-05-29."] true
     (by decide) (by decide)⟩

end SmarterDog
